import Mathlib

/-
Verification development for the MasterDex "big swaps" aggregation tool
(`masterdexBigSwapsTool` and its helpers `fetchWithRetry`, `formatTradeData`,
`getTimeAgo`, `getUniqueSymbols`, `searchTokenAcrossChains`).

Modelling conventions:
* JS strings are Lean `String`s; optional / possibly-undefined JS values are
  `Option`; JS numbers, which this code only compares, are Lean `Int`s.
* The external `fetch` is a stub `String → Nat → FetchOutcome` giving, for a
  URL, the outcome of each numbered attempt; a response body is modelled as
  its parsed JSON `data` field: `some trades` when `data && data.data &&
  Array.isArray(data.data)` holds, `none` otherwise.
* JS runtime functions that do not belong to the repository (the clock,
  `Date` parsing and locale rendering, `toLocaleString`, `toISOString`) are
  an explicit environment `JsEnv`.
* `Array.prototype.sort` with a consistent comparator is required to be
  stable and sorted, which characterises its output uniquely; it is modelled
  by the stable `List.insertionSort`.
-/

/-- JS-style test that `p` occurs at the start of a character list. -/
def charsStartWith : List Char → List Char → Bool
  | [], _ => true
  | _ :: _, [] => false
  | p :: ps, c :: cs => p == c && charsStartWith ps cs

/-- JS `String.prototype.includes` on character lists. -/
def charsContain : List Char → List Char → Bool
  | [], pat => pat.isEmpty
  | c :: rest, pat => charsStartWith pat (c :: rest) || charsContain rest pat

/-- JS `s.includes(pat)`. -/
def strContains (s pat : String) : Bool :=
  charsContain s.data pat.data

/-- JS `s.toLowerCase()` (character-wise lowering). -/
def jsToLower (s : String) : String :=
  String.mk (s.data.map Char.toLower)

/-- JS `s.trim()`: strip whitespace from both ends. -/
def jsTrim (s : String) : String :=
  String.mk (((s.data.dropWhile Char.isWhitespace).reverse.dropWhile Char.isWhitespace).reverse)

/-- JS `s.split(sep)` for a one-character separator, on character lists. -/
def splitOnChar (sep : Char) : List Char → List (List Char)
  | [] => [[]]
  | c :: cs =>
    if c == sep then [] :: splitOnChar sep cs
    else
      match splitOnChar sep cs with
      | [] => [[c]]
      | h :: t => (c :: h) :: t

/-- JS `s.split('/')`. -/
def jsSplitSlash (s : String) : List String :=
  (splitOnChar '/' s.data).map String.mk

/-- JS strict equality `s === x` where `x` may be undefined (as after array
destructuring past the end): comparison with undefined is always false. -/
def someEq (s : String) : Option String → Bool
  | some t => s == t
  | none => false

/-- JS truthiness of a possibly-undefined string: undefined and "" are falsy. -/
def strTruthy : Option String → Bool
  | some s => !(s == "")
  | none => false

/-- JS truthiness of a possibly-undefined number: undefined and 0 are falsy. -/
def intTruthy : Option Int → Bool
  | some v => !(v == 0)
  | none => false

/-- The source expression `trade.symbolX?.toLowerCase() || ''`. -/
def lowOr : Option String → String
  | some s => jsToLower s
  | none => ""

/-- JS template interpolation of a possibly-undefined string. -/
def jsStr : Option String → String
  | some s => s
  | none => "undefined"

/-- JS `x || d` for a possibly-undefined string `x` and default `d`. -/
def jsOrStr (o : Option String) (d : String) : String :=
  match o with
  | some s => if s == "" then d else s
  | none => d

/-- The fields of the `MasterDexTrade` interface that the tool reads. -/
structure MasterDexTrade where
  transType : String
  blockNumber : Int
  amountBase : Int
  amountQuote : Option Int
  symbol0 : Option String
  symbol1 : Option String
  price : Int
  token0Price : Int
  token1Price : Int
  tnxvalue : Int
  account : String
  bottrade : Bool
  txnDetail : String
  time : String
  pairId : String
  feeTier : Int
  chain : String
deriving DecidableEq

/-- Outcome of one fetch attempt: an OK (2xx) response with its parsed body,
a non-OK HTTP response (status and statusText), or an error thrown by fetch
itself — connection reset, DNS failure, timeout abort — carrying the JS
Error's message and name. -/
inductive FetchOutcome where
  | ok (body : Option (List MasterDexTrade))
  | httpError (status : Nat) (statusText : String)
  | connError (message : String) (errName : String)
deriving DecidableEq

/-- Result of `fetchWithRetry`: the successful response body, or the message
of the error it throws. -/
inductive FetchResult where
  | success (body : Option (List MasterDexTrade))
  | failure (message : String)
deriving DecidableEq

/-- What the try block of one attempt produces: the response body, or the
message and name of the caught error.  A non-OK response is turned into
`new Error("HTTP status: statusText")`, whose name is "Error". -/
def attemptResult : FetchOutcome → (Option (List MasterDexTrade)) ⊕ (String × String)
  | .ok body => Sum.inl body
  | .httpError status statusText =>
      Sum.inr ("HTTP " ++ toString status ++ ": " ++ statusText, "Error")
  | .connError m n => Sum.inr (m, n)

/-- The `isConnectionError` classifier of `fetchWithRetry`. -/
def isConnectionError (message errName : String) : Bool :=
  strContains message "ECONNRESET" || strContains message "ENOTFOUND" ||
    strContains message "ETIMEDOUT" || strContains message "fetch" ||
    errName == "AbortError"

/-- The attempt loop of `fetchWithRetry`.  `remaining` counts the attempts the
loop may still start (`maxRetries + 1 - attempt`), making the recursion
structural; `delay` doubles after each retried failure as in the source. -/
def fetchLoop (f : Nat → FetchOutcome) (maxRetries : Nat) : Nat → Nat → Int → FetchResult
  | _, 0, _ => .failure "Unexpected error in fetchWithRetry"
  | attempt, remaining + 1, delay =>
    match attemptResult (f attempt) with
    | Sum.inl body => .success body
    | Sum.inr (msg, errName) =>
      if attempt == maxRetries then
        .failure ("Failed after " ++ toString maxRetries ++ " attempts. Last error: " ++ msg)
      else if isConnectionError msg errName then
        fetchLoop f maxRetries (attempt + 1) remaining (delay * 2)
      else .failure msg

/-- `fetchWithRetry(url, maxRetries = 3, delay = 1000)`, with the fetches at
`url` already applied in the stub `f`. -/
def fetchWithRetry (f : Nat → FetchOutcome) (maxRetries : Nat := 3) (delay : Int := 1000) :
    FetchResult :=
  fetchLoop f maxRetries 1 maxRetries delay

/-- The JS runtime facilities used by the tool, kept abstract: the clock (in
epoch milliseconds), `new Date(s).getTime()`, `new Date(s).toLocaleString()`,
the two-decimal `toLocaleString` of a USD amount, and
`new Date(ms).toISOString()`. -/
structure JsEnv where
  nowMs : Int
  parseTime : String → Int
  dateLocale : String → String
  numLocale : Int → String
  isoString : Int → String

/-- `getTimeAgo`. -/
def getTimeAgo (e : JsEnv) (timeString : String) : String :=
  let diffInSeconds := Int.fdiv (e.nowMs - e.parseTime timeString) 1000
  if diffInSeconds < 60 then toString diffInSeconds ++ "s ago"
  else if diffInSeconds < 3600 then toString (Int.fdiv diffInSeconds 60) ++ "m ago"
  else if diffInSeconds < 86400 then toString (Int.fdiv diffInSeconds 3600) ++ "h ago"
  else toString (Int.fdiv diffInSeconds 86400) ++ "d ago"

/-- The record shape produced by `formatTradeData`. -/
structure FormattedTrade where
  pair : String
  type : String
  value : String
  amountBase : Int
  amountQuote : Option Int
  price : Int
  token0Price : Int
  token1Price : Int
  account : String
  transactionHash : String
  blockNumber : Int
  time : String
  age : String
  chain : String
  isBotTrade : Bool
  pairId : String
  feeTier : Int
  raw : MasterDexTrade
deriving DecidableEq

/-- `formatTradeData`. -/
def formatTradeData (e : JsEnv) (trade : MasterDexTrade) : FormattedTrade :=
  { pair := jsStr trade.symbol0 ++ "/" ++ jsStr trade.symbol1
    type := trade.transType
    value := "$" ++ e.numLocale trade.tnxvalue
    amountBase := trade.amountBase
    amountQuote := trade.amountQuote
    price := trade.price
    token0Price := trade.token0Price
    token1Price := trade.token1Price
    account := trade.account
    transactionHash := trade.txnDetail
    blockNumber := trade.blockNumber
    time := e.dateLocale trade.time
    age := getTimeAgo e trade.time
    chain := trade.chain
    isBotTrade := trade.bottrade
    pairId := trade.pairId
    feeTier := trade.feeTier
    raw := trade }

/-- The strict character-list order underlying the default JS string sort. -/
def charsLt : List Char → List Char → Bool
  | _, [] => false
  | [], _ :: _ => true
  | a :: as, b :: bs => a < b || (a == b && charsLt as bs)

/-- The default JS `Array.prototype.sort()` string order, as a relation. -/
def jsStrLe (a b : String) : Prop :=
  charsLt b.data a.data = false

instance : DecidableRel jsStrLe :=
  fun a b => inferInstanceAs (Decidable (charsLt b.data a.data = false))

/-- One `symbols.add` step of `getUniqueSymbols`: skipped for a falsy symbol,
no-op if already present, otherwise appended (JS Set insertion order). -/
def addSymbol (acc : List String) (s : Option String) : List String :=
  match s with
  | some str => if str == "" then acc else if acc.contains str then acc else acc ++ [str]
  | none => acc

/-- `getUniqueSymbols`: collect the truthy symbols of both sides into a set
and sort them with the default string sort. -/
def getUniqueSymbols (trades : List MasterDexTrade) : List String :=
  List.insertionSort jsStrLe
    (trades.foldl (fun acc trade => addSymbol (addSymbol acc trade.symbol0) trade.symbol1) [])

def supportedChains : List String :=
  ["ethereum", "base", "optimism", "polygon", "arbitrum", "bnb", "blast"]

def chainUrl (chain : String) : String :=
  "https://api.masterdex.xyz/v1/pairs/getbigSwaps/" ++ chain

def multiChainUrl : String :=
  "https://api.masterdex.xyz/v1/pairs/getbigSwaps"

/-- The per-trade token test of the tool and of `searchTokenAcrossChains`:
`symbol0Lower.includes(tokenLower) || symbol1Lower.includes(tokenLower)`. -/
def tokenFilterPred (tokenLower : String) (trade : MasterDexTrade) : Bool :=
  strContains (lowOr trade.symbol0) tokenLower || strContains (lowOr trade.symbol1) tokenLower

/-- One iteration of the chain loop in `searchTokenAcrossChains`: a throwing
fetch or a malformed body contributes nothing (the error is only logged); a
valid body contributes its token-matching trades; the chain is always
appended to `chainsChecked`. -/
def searchStep (f : String → Nat → FetchOutcome) (tokenLower : String)
    (acc : List MasterDexTrade × List String) (chain : String) :
    List MasterDexTrade × List String :=
  match fetchWithRetry (f (chainUrl chain)) with
  | .failure _ => (acc.1, acc.2 ++ [chain])
  | .success none => (acc.1, acc.2 ++ [chain])
  | .success (some data) =>
      (acc.1 ++ data.filter (tokenFilterPred tokenLower), acc.2 ++ [chain])

/-- `searchTokenAcrossChains` (its `limit` parameter is unused in the source
body and omitted here). -/
def searchTokenAcrossChains (f : String → Nat → FetchOutcome) (token : String) :
    List MasterDexTrade × List String :=
  supportedChains.foldl (searchStep f (jsTrim (jsToLower token))) ([], [])

/-- The token filter of `execute`, applied only under `if (token && chain)`. -/
def tokenStage (token chain : Option String) (l : List MasterDexTrade) :
    List MasterDexTrade :=
  if strTruthy token && strTruthy chain then
    l.filter (tokenFilterPred (jsTrim (jsToLower (token.getD ""))))
  else l

/-- The per-trade pair test, with `a` and `b` the two destructured components
of `pairLower.split('/')` (either may be past the end, hence undefined). -/
def pairFilterPred (a b : Option String) (trade : MasterDexTrade) : Bool :=
  let s0 := lowOr trade.symbol0
  let s1 := lowOr trade.symbol1
  (someEq s0 a && someEq s1 b) || (someEq s0 b && someEq s1 a)

/-- The pair filter of `execute`, applied under `if (pair)`. -/
def pairStage (pair : Option String) (l : List MasterDexTrade) : List MasterDexTrade :=
  if strTruthy pair then
    let parts := jsSplitSlash (jsTrim (jsToLower (pair.getD "")))
    l.filter (pairFilterPred parts[0]? parts[1]?)
  else l

/-- The trade-type filter of `execute`, applied under `if (tradeType)`. -/
def typeStage (tradeType : Option String) (l : List MasterDexTrade) : List MasterDexTrade :=
  if strTruthy tradeType then
    l.filter (fun trade => jsToLower trade.transType == jsToLower (tradeType.getD ""))
  else l

/-- The minimum-value filter of `execute`, applied under `if (minValue)`. -/
def minStage (minValue : Option Int) (l : List MasterDexTrade) : List MasterDexTrade :=
  if intTruthy minValue then
    l.filter (fun trade => minValue.getD 0 ≤ trade.tnxvalue)
  else l

/-- The sort comparator `(a, b) => new Date(b.time).getTime() - new
Date(a.time).getTime()`, i.e. descending time, as a relation parameterised by
the Date parser `p`. -/
def timeDesc (p : String → Int) (a b : MasterDexTrade) : Prop :=
  p b.time ≤ p a.time

instance (p : String → Int) : DecidableRel (timeDesc p) :=
  fun a b => inferInstanceAs (Decidable (p b.time ≤ p a.time))

/-- The sort step of `execute`: stable sort by time descending. -/
def sortStage (p : String → Int) (l : List MasterDexTrade) : List MasterDexTrade :=
  List.insertionSort (timeDesc p) l

/-- One step of the `resultsByChain` reduce: push the formatted trade onto
its chain's group, creating the group at the end on first use. -/
def pushGroup (acc : List (String × List FormattedTrade)) (k : String) (v : FormattedTrade) :
    List (String × List FormattedTrade) :=
  if acc.any (fun p => p.1 == k) then
    acc.map (fun p => if p.1 == k then (p.1, p.2 ++ [v]) else p)
  else acc ++ [(k, [v])]

/-- The `resultsByChain` grouping, keyed by `trade.chain || chain || 'unknown'`
(as an insertion-ordered association list, matching JS object key order for
these non-numeric keys). -/
def groupByChain (e : JsEnv) (chain : Option String) (l : List MasterDexTrade) :
    List (String × List FormattedTrade) :=
  l.foldl
    (fun acc trade =>
      let chainName := if trade.chain == "" then jsOrStr chain "unknown" else trade.chain
      pushGroup acc chainName (formatTradeData e trade))
    []

/-- The `filters` echo object of the response; `minValue := none` encodes the
JS string "none" used for a falsy value. -/
structure FiltersEcho where
  chain : String
  token : String
  pair : String
  minValue : Option Int
  tradeType : String
  limit : Int
deriving DecidableEq

/-- The success envelope `responseData` (its constant `success: true` field is
carried by the `ToolResponse.success` constructor). -/
structure SuccessData where
  data : List FormattedTrade
  dataByChain : List (String × List FormattedTrade)
  count : Nat
  totalFetched : Nat
  message : String
  source : String
  url : String
  supportedChains : List String
  filteredChain : String
  endpointUsed : String
  chainsChecked : List String
  filters : FiltersEcho
  availableSymbols : List String
  timestamp : String
deriving DecidableEq

/-- The structured result of `execute`: the success envelope, or the catch
block's `{success: false, error, url, timestamp, suggestion}` envelope. -/
inductive ToolResponse where
  | success (body : SuccessData)
  | failure (error : String) (url : String) (timestamp : String) (suggestion : String)
deriving DecidableEq

/-- The tool's parameters (all optional; `limit` defaults to 20 in `execute`). -/
structure Query where
  chain : Option String := none
  token : Option String := none
  pair : Option String := none
  minValue : Option Int := none
  limit : Option Int := none
  tradeType : Option String := none
deriving DecidableEq

/-- The source-selection and fetch part of `execute`: the chain-specific
endpoint under `if (chain)`, the cross-chain search under `else if (token &&
!pair)`, and the multi-chain endpoint otherwise.  Produces the fetched
trades, the `url`, and `chainsChecked`, or the message of a thrown error. -/
def fetchPhase (q : Query) (f : String → Nat → FetchOutcome) :
    Except String (List MasterDexTrade × String × List String) :=
  if strTruthy q.chain then
    match fetchWithRetry (f (chainUrl (q.chain.getD ""))) with
    | .failure msg => .error msg
    | .success none => .error "Invalid response format from MasterDex API"
    | .success (some data) => .ok (data, chainUrl (q.chain.getD ""), [q.chain.getD ""])
  else if strTruthy q.token && !strTruthy q.pair then
    let sr := searchTokenAcrossChains f (q.token.getD "")
    .ok (sr.1, "multi-chain-search", sr.2)
  else
    match fetchWithRetry (f multiChainUrl) with
    | .failure msg => .error msg
    | .success none => .error "Invalid response format from MasterDex API"
    | .success (some data) => .ok (data, multiChainUrl, ["multi-chain"])

/-- The filter section of `execute`, in source order: token, pair, tradeType,
minValue. -/
def filterChain (q : Query) (l : List MasterDexTrade) : List MasterDexTrade :=
  minStage q.minValue (typeStage q.tradeType (pairStage q.pair (tokenStage q.token q.chain l)))

/-- The filter/sort/limit/shape section of `execute`, from the fetched trades
to `responseData`. -/
def shapePhase (q : Query) (e : JsEnv) (results : List MasterDexTrade) (url : String)
    (chainsChecked : List String) : SuccessData :=
  let availableSymbols := getUniqueSymbols results
  let sorted := sortStage e.parseTime (filterChain q results)
  let limit := q.limit.getD 20
  let final := if 0 < limit then sorted.take limit.toNat else sorted
  let allChains := supportedChains
  { data := final.map (formatTradeData e)
    dataByChain := groupByChain e q.chain final
    count := final.length
    totalFetched := final.length
    message :=
      if 0 < final.length then
        "Found " ++ toString final.length ++ " trades matching your criteria"
      else
        "No trades found matching your criteria. Available symbols: " ++
          String.intercalate ", " (availableSymbols.take 10)
    source := "MasterDex"
    url := url
    supportedChains := allChains
    filteredChain := jsOrStr q.chain "all"
    endpointUsed :=
      if strTruthy q.chain then "chain-specific (" ++ q.chain.getD "" ++ ")"
      else if url == "multi-chain-search" then "cross-chain-search"
      else "multi-chain"
    chainsChecked := chainsChecked
    filters :=
      { chain := jsOrStr q.chain "all"
        token := jsOrStr q.token "none"
        pair := jsOrStr q.pair "none"
        minValue := if intTruthy q.minValue then q.minValue else none
        tradeType := jsOrStr q.tradeType "all"
        limit := limit }
    availableSymbols := availableSymbols.take 20
    timestamp := e.isoString e.nowMs }

/-- The try block of `execute`. -/
def executeBody (q : Query) (f : String → Nat → FetchOutcome) (e : JsEnv) :
    Except String SuccessData :=
  match fetchPhase q f with
  | .error msg => .error msg
  | .ok (results, url, chainsChecked) => .ok (shapePhase q e results url chainsChecked)

/-- The constant `suggestion` of the catch block's envelope. -/
def suggestionText : String :=
  "Please try again in a few moments. If the issue persists, the MasterDex API might be temporarily unavailable."

/-- `masterdexBigSwapsTool.execute`: every thrown error is converted by the
catch block into a failure envelope, so the operation is a total function
into `ToolResponse` and never raises. -/
def execute (q : Query) (f : String → Nat → FetchOutcome) (e : JsEnv) : ToolResponse :=
  match executeBody q f e with
  | .ok body => .success body
  | .error msg =>
      .failure msg
        (if strTruthy q.chain then chainUrl (q.chain.getD "") else multiChainUrl)
        (e.isoString e.nowMs) suggestionText

/-- The raw (pre-formatting) records underlying a response's `data` field. -/
def rawData : ToolResponse → List MasterDexTrade
  | .success body => body.data.map (fun ft => ft.raw)
  | .failure _ _ _ _ => []

/-- The `success` flag of a response. -/
def successOf : ToolResponse → Bool
  | .success _ => true
  | .failure _ _ _ _ => false

/-- The `count` field of a success envelope (0 on failure). -/
def countOf : ToolResponse → Nat
  | .success body => body.count
  | .failure _ _ _ _ => 0

/-- The `availableSymbols` field of a success envelope ([] on failure). -/
def availableSymbolsOf : ToolResponse → List String
  | .success body => body.availableSymbols
  | .failure _ _ _ _ => []

/-- The `timestamp` field of a response. -/
def timestampOf : ToolResponse → String
  | .success body => body.timestamp
  | .failure _ _ ts _ => ts

/-- The claim of §7: a failure envelope carries a non-empty error message and
a non-empty suggestion (success envelopes are unconstrained). -/
def isGoodEnvelope : ToolResponse → Prop
  | .success _ => True
  | .failure err _ _ sugg => err ≠ "" ∧ sugg ≠ ""

/-- The `chainsChecked` field of a success envelope ([] on failure). -/
def chainsCheckedOf : ToolResponse → List String
  | .success body => body.chainsChecked
  | .failure _ _ _ _ => []

/-- What one chain contributes to the records of `searchTokenAcrossChains`: a
failed or malformed fetch contributes nothing, a valid body its
token-matching trades. -/
def chainContribution (f : String → Nat → FetchOutcome) (tokenLower : String)
    (chain : String) : List MasterDexTrade :=
  match fetchWithRetry (f (chainUrl chain)) with
  | .failure _ => []
  | .success none => []
  | .success (some data) => data.filter (tokenFilterPred tokenLower)

instance (p : String → Int) : IsTotal MasterDexTrade (timeDesc p) :=
  ⟨fun a b => Int.le_total (p b.time) (p a.time)⟩

instance (p : String → Int) : IsTrans MasterDexTrade (timeDesc p) :=
  ⟨fun _ _ _ hab hbc => le_trans hbc hab⟩

-- Concrete fixtures used by witnesses and counterexamples.

/-- A sample trade with pair AAA/BBB on base. -/
def tAB : MasterDexTrade :=
  { transType := "Buy", blockNumber := 1, amountBase := 2, amountQuote := none,
    symbol0 := some "AAA", symbol1 := some "BBB", price := 5, token0Price := 1,
    token1Price := 1, tnxvalue := 100, account := "0xa", bottrade := false,
    txnDetail := "0xt1", time := "T1", pairId := "p1", feeTier := 3, chain := "base" }

/-- A trade with the pair sides swapped: (BBB, AAA). -/
def tBA : MasterDexTrade :=
  { tAB with symbol0 := some "BBB", symbol1 := some "AAA", txnDetail := "0xt2" }

/-- A trade with lowercase pair (aaa, bbb). -/
def tLowerAB : MasterDexTrade :=
  { tAB with symbol0 := some "aaa", symbol1 := some "bbb", txnDetail := "0xt3" }

/-- A trade with pair (AAA, CCC). -/
def tAC : MasterDexTrade :=
  { tAB with symbol1 := some "CCC", txnDetail := "0xt4" }

/-- A trade whose symbols are falsy (empty / undefined). -/
def tEmptySyms : MasterDexTrade :=
  { tAB with symbol0 := some "", symbol1 := none, txnDetail := "0xt5" }

/-- Trades whose `time` strings have lengths 3, 2, 1, so that under the
fixture parser below their timestamps are 3 > 2 > 1. -/
def tTime3 : MasterDexTrade := { tAB with time := "333", txnDetail := "0xs3" }

def tTime2 : MasterDexTrade := { tAB with time := "22", txnDetail := "0xs2" }

def tTime1 : MasterDexTrade := { tAB with time := "1", txnDetail := "0xs1" }

/-- A fixture runtime: the clock reads 0 and `new Date(s).getTime()` is the
length of `s`; locale rendering is the identity / plain printing. -/
def env0 : JsEnv :=
  { nowMs := 0, parseTime := fun s => (s.data.length : Int),
    dateLocale := fun s => s, numLocale := fun v => toString v,
    isoString := fun v => toString v }

/-- The fixture runtime at a later clock instant. -/
def envLater : JsEnv := { env0 with nowMs := 1000 }

/-- A stub whose every URL responds OK with body [tAB]. -/
def fOk : String → Nat → FetchOutcome := fun _ _ => .ok (some [tAB])

/-- A stub returning HTTP 500 on attempt 1 and OK afterwards. -/
def stubHttp500 : Nat → FetchOutcome
  | 1 => .httpError 500 "Internal Server Error"
  | _ => .ok (some [])

/-- A stub failing with a connection error on attempt 1 and OK afterwards. -/
def stubConnOnce : Nat → FetchOutcome
  | 1 => .connError "read ECONNRESET" "Error"
  | _ => .ok (some [])

/-- A stub where the ethereum endpoint always fails with connection error A
and every other URL responds OK with [tAB]. -/
def fFailEthA : String → Nat → FetchOutcome := fun url _ =>
  if url == chainUrl "ethereum" then .connError "boom A ECONNRESET" "Error"
  else .ok (some [tAB])

/-- Like `fFailEthA` but ethereum fails with a different message B. -/
def fFailEthB : String → Nat → FetchOutcome := fun url _ =>
  if url == chainUrl "ethereum" then .connError "boom B ECONNRESET" "Error"
  else .ok (some [tAB])

/-- A stub whose every URL responds OK with the falsy-symbol trade. -/
def fEmptySyms : String → Nat → FetchOutcome := fun _ _ => .ok (some [tEmptySyms])

/-- A stub responding OK with the three sort-fixture trades in the order
[time 1, time 3, time 2]. -/
def fTimes : String → Nat → FetchOutcome := fun _ _ => .ok (some [tTime1, tTime3, tTime2])

/-- A stub that fails on the multi-chain endpoint and responds with [tAB]
elsewhere. -/
def fNoMulti : String → Nat → FetchOutcome := fun url n =>
  if url == multiChainUrl then .connError "nope" "Error" else fOk url n

def qBase : Query := { chain := some "base" }

def qTokenOnly : Query := { token := some "aaa" }

def qTokenPair : Query := { token := some "foo", pair := some "aaa/bbb" }

def qLimit0 : Query := { chain := some "base", limit := some 0 }

def qTokenBase : Query := { chain := some "base", token := some "zzz" }

/-- A stub whose every URL always returns HTTP 503. -/
def fHttpAlways : String → Nat → FetchOutcome := fun _ _ => .httpError 503 "Service Unavailable"

-- ===== Shared lemmas =====

theorem strAppend_ne_empty_left (a b : String) (h : a ≠ "") : a ++ b ≠ "" := by
  intro hab
  apply h
  have hd : a.data ++ b.data = [] := congrArg String.data hab
  have : a.data = [] := (List.append_eq_nil.mp hd).1
  cases a
  simp_all

theorem failedMsg_ne_empty (M : Nat) (m : String) :
    ("Failed after " ++ toString M ++ " attempts. Last error: " ++ m) ≠ "" :=
  strAppend_ne_empty_left _ _ (strAppend_ne_empty_left _ _ (strAppend_ne_empty_left _ _ (by decide)))

theorem httpMsg_ne_empty (s : Nat) (st : String) :
    ("HTTP " ++ toString s ++ ": " ++ st) ≠ "" :=
  strAppend_ne_empty_left _ _ (strAppend_ne_empty_left _ _ (strAppend_ne_empty_left _ _ (by decide)))

theorem fetchLoop_failure_ne_empty (f : Nat → FetchOutcome) (maxRetries : Nat)
    (hf : ∀ n m nm, f n = .connError m nm → m ≠ "") :
    ∀ (remaining attempt : Nat) (delay : Int) (msg : String),
      fetchLoop f maxRetries attempt remaining delay = .failure msg → msg ≠ "" := by
  intro remaining
  induction remaining with
  | zero =>
    intro attempt delay msg h
    simp only [fetchLoop] at h
    injection h with h'
    subst h'
    decide
  | succ n ih =>
    intro attempt delay msg h
    simp only [fetchLoop] at h
    cases hfa : f attempt with
    | ok body => rw [hfa] at h; simp [attemptResult] at h
    | httpError status statusText =>
      rw [hfa] at h
      simp only [attemptResult] at h
      by_cases hl : (attempt == maxRetries) = true
      · rw [if_pos hl] at h
        injection h with h'
        subst h'
        exact failedMsg_ne_empty _ _
      · rw [if_neg hl] at h
        by_cases hc : isConnectionError ("HTTP " ++ toString status ++ ": " ++ statusText) "Error" = true
        · rw [if_pos hc] at h; exact ih _ _ _ h
        · rw [if_neg hc] at h
          injection h with h'
          subst h'
          exact httpMsg_ne_empty _ _
    | connError m nm =>
      rw [hfa] at h
      simp only [attemptResult] at h
      by_cases hl : (attempt == maxRetries) = true
      · rw [if_pos hl] at h
        injection h with h'
        subst h'
        exact failedMsg_ne_empty _ _
      · rw [if_neg hl] at h
        by_cases hc : isConnectionError m nm = true
        · rw [if_pos hc] at h; exact ih _ _ _ h
        · rw [if_neg hc] at h
          injection h with h'
          subst h'
          exact hf _ _ _ hfa

theorem fetchWithRetry_failure_ne_empty (f : Nat → FetchOutcome)
    (hf : ∀ n m nm, f n = .connError m nm → m ≠ "") (msg : String)
    (h : fetchWithRetry f = .failure msg) : msg ≠ "" :=
  fetchLoop_failure_ne_empty f 3 hf 3 1 1000 msg h

theorem execute_ok (q : Query) (f : String → Nat → FetchOutcome) (e : JsEnv)
    (res : List MasterDexTrade) (url : String) (cc : List String)
    (h : fetchPhase q f = .ok (res, url, cc)) :
    execute q f e = .success (shapePhase q e res url cc) := by
  simp [execute, executeBody, h]

theorem execute_err (q : Query) (f : String → Nat → FetchOutcome) (e : JsEnv)
    (msg : String) (h : fetchPhase q f = .error msg) :
    execute q f e =
      .failure msg (if strTruthy q.chain then chainUrl (q.chain.getD "") else multiChainUrl)
        (e.isoString e.nowMs) suggestionText := by
  simp [execute, executeBody, h]

theorem fetchPhase_chain_ok (q : Query) (f : String → Nat → FetchOutcome)
    (data : List MasterDexTrade) (hc : strTruthy q.chain = true)
    (hr : fetchWithRetry (f (chainUrl (q.chain.getD ""))) = .success (some data)) :
    fetchPhase q f = .ok (data, chainUrl (q.chain.getD ""), [q.chain.getD ""]) := by
  simp [fetchPhase, hc, hr]

theorem fetchPhase_token (q : Query) (f : String → Nat → FetchOutcome)
    (hc : strTruthy q.chain = false) (ht : strTruthy q.token = true)
    (hp : strTruthy q.pair = false) :
    fetchPhase q f =
      .ok ((searchTokenAcrossChains f (q.token.getD "")).1, "multi-chain-search",
        (searchTokenAcrossChains f (q.token.getD "")).2) := by
  simp [fetchPhase, hc, ht, hp]

theorem searchStep_eq (f : String → Nat → FetchOutcome) (tl : String)
    (acc : List MasterDexTrade × List String) (chain : String) :
    searchStep f tl acc chain = (acc.1 ++ chainContribution f tl chain, acc.2 ++ [chain]) := by
  unfold searchStep chainContribution
  cases h : fetchWithRetry (f (chainUrl chain)) with
  | failure m => simp
  | success b => cases b <;> simp

theorem searchFold (f : String → Nat → FetchOutcome) (tl : String) :
    ∀ (chains : List String) (acc : List MasterDexTrade × List String),
      chains.foldl (searchStep f tl) acc =
        (acc.1 ++ (chains.map (chainContribution f tl)).flatten, acc.2 ++ chains) := by
  intro chains
  induction chains with
  | nil => intro acc; simp
  | cons c cs ih =>
    intro acc
    rw [List.foldl_cons, searchStep_eq, ih]
    simp

theorem searchTokenAcrossChains_eq (f : String → Nat → FetchOutcome) (token : String) :
    searchTokenAcrossChains f token =
      ((supportedChains.map (chainContribution f (jsTrim (jsToLower token)))).flatten,
        supportedChains) := by
  unfold searchTokenAcrossChains
  rw [searchFold]
  simp

theorem sortStage_perm (p : String → Int) (l : List MasterDexTrade) :
    (sortStage p l).Perm l :=
  List.perm_insertionSort _ l

theorem sortStage_sorted (p : String → Int) (l : List MasterDexTrade) :
    List.Sorted (timeDesc p) (sortStage p l) :=
  List.sorted_insertionSort _ l

theorem raw_formatTradeData (e : JsEnv) (t : MasterDexTrade) :
    (formatTradeData e t).raw = t := rfl

theorem rawData_execute (q : Query) (f : String → Nat → FetchOutcome) (e : JsEnv)
    (res : List MasterDexTrade) (url : String) (cc : List String)
    (h : fetchPhase q f = .ok (res, url, cc)) :
    rawData (execute q f e) =
      (if 0 < q.limit.getD 20
        then (sortStage e.parseTime (filterChain q res)).take (q.limit.getD 20).toNat
        else sortStage e.parseTime (filterChain q res)) := by
  have hid : ∀ (l : List MasterDexTrade),
      List.map ((fun ft => ft.raw) ∘ formatTradeData e) l = l := by
    intro l
    induction l with
    | nil => rfl
    | cons a as ih =>
      rw [List.map_cons, ih]
      rfl
  rw [execute_ok q f e res url cc h]
  simp only [rawData, shapePhase, List.map_map]
  split <;> rw [hid]

theorem addSymbol_ne_nil_of_ne_nil (acc : List String) (s : Option String) (h : acc ≠ []) :
    addSymbol acc s ≠ [] := by
  cases s with
  | none => exact h
  | some str =>
    simp only [addSymbol]
    split
    · exact h
    · split
      · exact h
      · simp

theorem addSymbol_ne_nil_of_truthy (acc : List String) (s : Option String)
    (h : strTruthy s = true) : addSymbol acc s ≠ [] := by
  cases s with
  | none => simp [strTruthy] at h
  | some str =>
    have hne : ¬((str == "") = true) := by simpa [strTruthy] using h
    simp only [addSymbol]
    rw [if_neg hne]
    by_cases hc : (acc.contains str) = true
    · rw [if_pos hc]
      intro hnil
      rw [hnil] at hc
      simp at hc
    · rw [if_neg hc]
      simp

theorem collectSymbols_ne_nil :
    ∀ (trades : List MasterDexTrade) (acc : List String),
      (acc ≠ [] ∨ ∃ t ∈ trades, strTruthy t.symbol0 = true ∨ strTruthy t.symbol1 = true) →
      trades.foldl (fun acc trade => addSymbol (addSymbol acc trade.symbol0) trade.symbol1) acc
        ≠ [] := by
  intro trades
  induction trades with
  | nil =>
    intro acc h
    rcases h with h | ⟨t, ht, _⟩
    · simpa using h
    · simp at ht
  | cons a as ih =>
    intro acc h
    rw [List.foldl_cons]
    apply ih
    rcases h with h | ⟨t, ht, hs⟩
    · exact Or.inl (addSymbol_ne_nil_of_ne_nil _ _ (addSymbol_ne_nil_of_ne_nil _ _ h))
    · rcases List.mem_cons.mp ht with rfl | hmem
      · left
        rcases hs with hs | hs
        · exact addSymbol_ne_nil_of_ne_nil _ _ (addSymbol_ne_nil_of_truthy _ _ hs)
        · exact addSymbol_ne_nil_of_truthy _ _ hs
      · exact Or.inr ⟨t, hmem, hs⟩

theorem getUniqueSymbols_ne_nil (trades : List MasterDexTrade)
    (h : ∃ t ∈ trades, strTruthy t.symbol0 = true ∨ strTruthy t.symbol1 = true) :
    getUniqueSymbols trades ≠ [] := by
  unfold getUniqueSymbols
  intro hnil
  have hperm := List.perm_insertionSort jsStrLe
    (trades.foldl (fun acc trade => addSymbol (addSymbol acc trade.symbol0) trade.symbol1) [])
  rw [hnil] at hperm
  exact collectSymbols_ne_nil trades [] (Or.inr h) hperm.symm.eq_nil

theorem take20_ne_nil (l : List String) (h : l ≠ []) : l.take 20 ≠ [] := by
  simp [List.take_eq_nil_iff, h]

theorem splitOnChar_eq_single (sep : Char) :
    ∀ (l : List Char), sep ∉ l → splitOnChar sep l = [l] := by
  intro l
  induction l with
  | nil => intro _; rfl
  | cons c cs ih =>
    intro h
    have hc : ¬((c == sep) = true) := by
      simp only [beq_iff_eq]
      exact fun hce => h (hce ▸ List.mem_cons_self c cs)
    rw [splitOnChar, if_neg hc, ih (fun hm => h (List.mem_cons_of_mem _ hm))]

theorem jsSplitSlash_no_slash (s : String) (h : ¬ '/' ∈ s.data) : jsSplitSlash s = [s] := by
  unfold jsSplitSlash
  rw [splitOnChar_eq_single _ _ h]
  cases s
  rfl

theorem fetchPhase_error_ne_empty (q : Query) (f : String → Nat → FetchOutcome)
    (hf : ∀ url n m nm, f url n = .connError m nm → m ≠ "") (msg : String)
    (h : fetchPhase q f = .error msg) : msg ≠ "" := by
  unfold fetchPhase at h
  by_cases hc : strTruthy q.chain = true
  · rw [if_pos hc] at h
    cases hr : fetchWithRetry (f (chainUrl (q.chain.getD ""))) with
    | failure m =>
      rw [hr] at h
      injection h with h'
      subst h'
      exact fetchWithRetry_failure_ne_empty _ (fun n m nm => hf _ n m nm) _ hr
    | success b =>
      rw [hr] at h
      cases b with
      | none =>
        injection h with h'
        subst h'
        decide
      | some data => exact Except.noConfusion h
  · rw [if_neg hc] at h
    by_cases ht : (strTruthy q.token && !strTruthy q.pair) = true
    · rw [if_pos ht] at h
      exact Except.noConfusion h
    · rw [if_neg ht] at h
      cases hr : fetchWithRetry (f multiChainUrl) with
      | failure m =>
        rw [hr] at h
        injection h with h'
        subst h'
        exact fetchWithRetry_failure_ne_empty _ (fun n m nm => hf _ n m nm) _ hr
      | success b =>
        rw [hr] at h
        cases b with
        | none =>
          injection h with h'
          subst h'
          decide
        | some data => exact Except.noConfusion h

-- ===== Claim theorems =====

/-- Claim C1: the claim says a non-OK HTTP response on one attempt is retried
exactly like a connection-level transient error, up to the budget of 3
attempts.  The code contradicts this (and its own comment "throw error to
trigger retry"): the error built from a non-OK response has message
"HTTP status: statusText" and name "Error", which `isConnectionError`
rejects, so the error is rethrown at once and the fetch fails after a single
attempt even though attempts 2 and 3 would have succeeded.  A connection
error in the same position is retried and succeeds. -/
theorem C1_nonok_not_retried :
    fetchWithRetry stubHttp500 = .failure "HTTP 500: Internal Server Error" ∧
    stubHttp500 2 = .ok (some []) ∧ stubHttp500 3 = .ok (some []) ∧
    fetchWithRetry stubConnOnce = .success (some []) :=
  ⟨by decide, by decide, by decide, by decide⟩

/-- Claim C4: for every Query, stub and runtime (whose thrown connection
errors carry non-empty messages, as real fetch errors do), `execute` returns
a structured envelope — it is a total function into `ToolResponse` — and a
failure envelope always carries a non-empty error message and the non-empty
constant suggestion. -/
theorem C4_structured_envelope (q : Query) (f : String → Nat → FetchOutcome) (e : JsEnv)
    (hf : ∀ url n m nm, f url n = .connError m nm → m ≠ "") :
    isGoodEnvelope (execute q f e) := by
  cases hfp : fetchPhase q f with
  | ok v =>
    obtain ⟨res, url, cc⟩ := v
    rw [execute_ok q f e res url cc hfp]
    exact trivial
  | error msg =>
    rw [execute_err q f e msg hfp]
    exact ⟨fetchPhase_error_ne_empty q f hf msg hfp, by decide⟩

theorem C4_witness : isGoodEnvelope (execute qBase fHttpAlways env0) :=
  C4_structured_envelope qBase fHttpAlways env0 (fun _ _ _ _ h => FetchOutcome.noConfusion h)

/-- Claim C6: when the lowercased, trimmed pair filter splits at '/' into
exactly the two components a and b, the pair stage keeps exactly the records
of the input whose two lowercased symbolic identifiers equal (a, b) in either
order — an exact, case-insensitive, order-insensitive match. -/
theorem C6_pair_filter (p a b : String) (l : List MasterDexTrade) (t : MasterDexTrade)
    (hsplit : jsSplitSlash (jsTrim (jsToLower p)) = [a, b]) :
    (t ∈ pairStage (some p) l ↔
      t ∈ l ∧
        ((lowOr t.symbol0 = a ∧ lowOr t.symbol1 = b) ∨
          (lowOr t.symbol0 = b ∧ lowOr t.symbol1 = a))) := by
  have hp : (p == "") = false := by
    apply beq_eq_false_iff_ne.mpr
    intro hpe
    subst hpe
    simp [jsToLower, jsTrim, jsSplitSlash, splitOnChar, String.mk] at hsplit
  have htr : strTruthy (some p) = true := by simp [strTruthy, hp]
  unfold pairStage
  rw [if_pos htr]
  simp only [Option.getD_some, hsplit]
  rw [List.mem_filter]
  apply and_congr_right
  intro _
  simp [pairFilterPred, someEq]

theorem C6_witness :
    (tBA ∈ pairStage (some "AAA/BBB") [tBA, tLowerAB, tAC] ↔
      tBA ∈ [tBA, tLowerAB, tAC] ∧
        ((lowOr tBA.symbol0 = "aaa" ∧ lowOr tBA.symbol1 = "bbb") ∨
          (lowOr tBA.symbol0 = "bbb" ∧ lowOr tBA.symbol1 = "aaa"))) ∧
    pairStage (some "AAA/BBB") [tBA, tLowerAB, tAC] = [tBA, tLowerAB] :=
  ⟨C6_pair_filter "AAA/BBB" "aaa" "bbb" [tBA, tLowerAB, tAC] tBA (by decide), by decide⟩

/-- Claim C8: a Query naming a single known chain fetches only from that
chain's endpoint: the response does not depend on the stub's behaviour at any
other URL, and a success envelope records exactly that chain in
`chainsChecked`. -/
theorem C8_single_source (q : Query) (c : String) (f1 f2 : String → Nat → FetchOutcome)
    (e : JsEnv) (hq : q.chain = some c) (hknown : c ∈ supportedChains)
    (hagree : f1 (chainUrl c) = f2 (chainUrl c)) :
    execute q f1 e = execute q f2 e ∧
    (∀ sd, execute q f1 e = .success sd → sd.chainsChecked = [c]) := by
  have hcne : c ≠ "" := by
    intro hce
    subst hce
    revert hknown
    decide
  have htr : strTruthy q.chain = true := by simp [hq, strTruthy, hcne]
  have heq : fetchPhase q f1 = fetchPhase q f2 := by
    unfold fetchPhase
    rw [if_pos htr, if_pos htr, hq]
    simp only [Option.getD_some, hagree]
  constructor
  · unfold execute executeBody
    rw [heq]
  · intro sd hsd
    unfold execute executeBody fetchPhase at hsd
    rw [if_pos htr, hq] at hsd
    simp only [Option.getD_some] at hsd
    cases hr : fetchWithRetry (f1 (chainUrl c)) with
    | failure m =>
      rw [hr] at hsd
      simp at hsd
    | success b =>
      rw [hr] at hsd
      cases b with
      | none => simp at hsd
      | some data =>
        simp only [] at hsd
        injection hsd with h'
        subst h'
        rfl

theorem C8_witness :
    execute qBase fOk env0 = execute qBase fNoMulti env0 ∧
    (∀ sd, execute qBase fOk env0 = .success sd → sd.chainsChecked = ["base"]) :=
  C8_single_source qBase "base" fOk fNoMulti env0 rfl (by decide) (by funext n; rfl)

/-- Claim C10: in the main aggregator a truthy pair filter whose lowercased,
trimmed text contains no '/' separator matches no record at all: the second
destructured component is undefined, strict equality of a (normalised,
hence string-valued) identifier with undefined is always false, and both
disjuncts of the pair test require one such comparison. -/
theorem C10_pair_no_slash (p : String) (l : List MasterDexTrade) (hp : p ≠ "")
    (h : ¬ '/' ∈ (jsTrim (jsToLower p)).data) :
    pairStage (some p) l = [] := by
  have htr : strTruthy (some p) = true := by simp [strTruthy, hp]
  unfold pairStage
  rw [if_pos htr]
  simp only [Option.getD_some, jsSplitSlash_no_slash _ h]
  apply List.filter_eq_nil_iff.mpr
  intro t ht
  simp [pairFilterPred, someEq]

theorem C10_witness : pairStage (some "AAABBB") [tAB] = [] :=
  C10_pair_no_slash "AAABBB" [tAB] (by decide) (by decide)

/-- Claim C5 (amended): with the same Query and the same deterministic fetch
stub, two runs whose runtimes agree on Date parsing produce the same records
in the same order (as raw records), the same success flag, count, available
symbols and chains checked; fields rendered from the wall clock (the
envelope timestamp, each record's age and locale strings) may differ. -/
theorem C5_deterministic (q : Query) (f : String → Nat → FetchOutcome) (e1 e2 : JsEnv)
    (hp : e1.parseTime = e2.parseTime) :
    rawData (execute q f e1) = rawData (execute q f e2) ∧
    successOf (execute q f e1) = successOf (execute q f e2) ∧
    countOf (execute q f e1) = countOf (execute q f e2) ∧
    availableSymbolsOf (execute q f e1) = availableSymbolsOf (execute q f e2) ∧
    chainsCheckedOf (execute q f e1) = chainsCheckedOf (execute q f e2) := by
  cases hfp : fetchPhase q f with
  | error msg =>
    rw [execute_err q f e1 msg hfp, execute_err q f e2 msg hfp]
    exact ⟨rfl, rfl, rfl, rfl, rfl⟩
  | ok v =>
    obtain ⟨res, url, cc⟩ := v
    refine ⟨?_, ?_, ?_, ?_, ?_⟩
    · rw [rawData_execute q f e1 res url cc hfp, rawData_execute q f e2 res url cc hfp, hp]
    · rw [execute_ok q f e1 res url cc hfp, execute_ok q f e2 res url cc hfp]
      rfl
    · rw [execute_ok q f e1 res url cc hfp, execute_ok q f e2 res url cc hfp]
      simp only [countOf, shapePhase]
      rw [hp]
    · rw [execute_ok q f e1 res url cc hfp, execute_ok q f e2 res url cc hfp]
      rfl
    · rw [execute_ok q f e1 res url cc hfp, execute_ok q f e2 res url cc hfp]
      rfl

theorem C5_witness :
    rawData (execute qBase fOk env0) = rawData (execute qBase fOk envLater) ∧
    successOf (execute qBase fOk env0) = successOf (execute qBase fOk envLater) ∧
    countOf (execute qBase fOk env0) = countOf (execute qBase fOk envLater) ∧
    availableSymbolsOf (execute qBase fOk env0) =
      availableSymbolsOf (execute qBase fOk envLater) ∧
    chainsCheckedOf (execute qBase fOk env0) = chainsCheckedOf (execute qBase fOk envLater) :=
  C5_deterministic qBase fOk env0 envLater rfl

/-- Claim C5 counterexample: two runs with the same deterministic stub and
Query but at different clock instants produce envelopes that are NOT equal
in all fields (the timestamp differs), refuting "all result fields equal
across the two runs". -/
theorem C5_cex : execute qBase fOk env0 ≠ execute qBase fOk envLater := by decide

/-- Claim C7 (amended): the returned record sequence is the filtered records
stably sorted by timestamp descending and then, when the requested limit
(default 20) is positive, truncated to a prefix of exactly
min(limit, matches) records; a non-positive limit disables truncation. -/
theorem C7_sort_truncate (q : Query) (f : String → Nat → FetchOutcome) (e : JsEnv)
    (res : List MasterDexTrade) (url : String) (cc : List String)
    (h : fetchPhase q f = .ok (res, url, cc)) :
    rawData (execute q f e) =
      (if 0 < q.limit.getD 20
        then (sortStage e.parseTime (filterChain q res)).take (q.limit.getD 20).toNat
        else sortStage e.parseTime (filterChain q res)) ∧
    List.Sorted (timeDesc e.parseTime) (sortStage e.parseTime (filterChain q res)) ∧
    (sortStage e.parseTime (filterChain q res)).Perm (filterChain q res) ∧
    (0 < q.limit.getD 20 →
      (rawData (execute q f e)).length =
        min (q.limit.getD 20).toNat (filterChain q res).length) := by
  refine ⟨rawData_execute q f e res url cc h, sortStage_sorted _ _, sortStage_perm _ _, ?_⟩
  intro hl
  rw [rawData_execute q f e res url cc h, if_pos hl, List.length_take,
    (sortStage_perm e.parseTime (filterChain q res)).length_eq]

theorem C7_witness :
    (rawData (execute qBase fTimes env0) =
      (if 0 < qBase.limit.getD 20
        then (sortStage env0.parseTime (filterChain qBase [tTime1, tTime3, tTime2])).take
          (qBase.limit.getD 20).toNat
        else sortStage env0.parseTime (filterChain qBase [tTime1, tTime3, tTime2])) ∧
      List.Sorted (timeDesc env0.parseTime)
        (sortStage env0.parseTime (filterChain qBase [tTime1, tTime3, tTime2])) ∧
      (sortStage env0.parseTime (filterChain qBase [tTime1, tTime3, tTime2])).Perm
        (filterChain qBase [tTime1, tTime3, tTime2]) ∧
      (0 < qBase.limit.getD 20 →
        (rawData (execute qBase fTimes env0)).length =
          min (qBase.limit.getD 20).toNat (filterChain qBase [tTime1, tTime3, tTime2]).length)) ∧
    rawData (execute qBase fTimes env0) = [tTime3, tTime2, tTime1] :=
  ⟨C7_sort_truncate qBase fTimes env0 [tTime1, tTime3, tTime2] (chainUrl "base") ["base"]
    (by rfl), by decide⟩

/-- Claim C7 counterexample: a requested limit of 0 does not truncate at all
(`if (limit && limit > 0)` is skipped for the falsy 0), so the output is not
a prefix of length at most the requested limit. -/
theorem C7_cex :
    qLimit0.limit = some 0 ∧ (rawData (execute qLimit0 fOk env0)).length = 1 :=
  ⟨rfl, by decide⟩

/-- Claim C9 (amended): a Query whose filters match zero records is not an
error: when the chain fetch succeeds with a non-empty trade list at least
one of whose trades has a truthy symbol, the result has success true, empty
data, count 0, and a non-empty availableSymbols preview equal to the first
20 distinct truthy symbols of the pre-filter records. -/
theorem C9_zero_match (q : Query) (f : String → Nat → FetchOutcome) (e : JsEnv)
    (c : String) (ts : List MasterDexTrade) (hq : q.chain = some c) (hc : c ≠ "")
    (hr : fetchWithRetry (f (chainUrl c)) = .success (some ts))
    (hsym : ∃ t ∈ ts, strTruthy t.symbol0 = true ∨ strTruthy t.symbol1 = true)
    (hzero : filterChain q ts = []) :
    successOf (execute q f e) = true ∧
    rawData (execute q f e) = [] ∧
    countOf (execute q f e) = 0 ∧
    availableSymbolsOf (execute q f e) = (getUniqueSymbols ts).take 20 ∧
    availableSymbolsOf (execute q f e) ≠ [] := by
  have htr : strTruthy q.chain = true := by simp [hq, strTruthy, hc]
  have hfp : fetchPhase q f = .ok (ts, chainUrl c, [c]) := by
    unfold fetchPhase
    rw [if_pos htr, hq]
    simp only [Option.getD_some, hr]
  have hso : execute q f e = .success (shapePhase q e ts (chainUrl c) [c]) :=
    execute_ok q f e ts (chainUrl c) [c] hfp
  have hsort : sortStage e.parseTime (filterChain q ts) = [] := by
    rw [hzero]
    rfl
  have h4 : availableSymbolsOf (execute q f e) = (getUniqueSymbols ts).take 20 := by
    rw [hso]
    rfl
  refine ⟨?_, ?_, ?_, h4, ?_⟩
  · rw [hso]
    rfl
  · rw [rawData_execute q f e ts (chainUrl c) [c] hfp, hsort]
    split <;> simp
  · rw [hso]
    simp [countOf, shapePhase, hsort]
  · rw [h4]
    exact take20_ne_nil _ (getUniqueSymbols_ne_nil ts hsym)

theorem C9_witness :
    successOf (execute qTokenBase fOk env0) = true ∧
    rawData (execute qTokenBase fOk env0) = [] ∧
    countOf (execute qTokenBase fOk env0) = 0 ∧
    availableSymbolsOf (execute qTokenBase fOk env0) = (getUniqueSymbols [tAB]).take 20 ∧
    availableSymbolsOf (execute qTokenBase fOk env0) ≠ [] :=
  C9_zero_match qTokenBase fOk env0 "base" [tAB] rfl (by decide) (by decide) (by decide)
    (by decide)

/-- Claim C9 counterexample: non-empty fetched data whose symbols are all
falsy (empty or undefined) yields an EMPTY availableSymbols preview even
though the source data is non-empty, refuting "non-empty availableSymbols
preview (when source data is non-empty)". -/
theorem C9_cex :
    fEmptySyms (chainUrl "base") 1 = .ok (some [tEmptySyms]) ∧
    successOf (execute qTokenBase fEmptySyms env0) = true ∧
    countOf (execute qTokenBase fEmptySyms env0) = 0 ∧
    availableSymbolsOf (execute qTokenBase fEmptySyms env0) = [] :=
  ⟨rfl, by decide, by decide, by decide⟩

/-- Claim C2 (amended): when one source exhausts its retry budget during the
cross-chain search, the aggregate call is not aborted: every chain is still
checked (chainsChecked is the full supported list), the exhausted chain
contributes zero records, the collected records are exactly the
concatenation of the per-chain contributions, and the call still succeeds.
No failedSources list exists in the result and the failure reason is not
recorded (see the counterexample). -/
theorem C2_source_exhaustion (f : String → Nat → FetchOutcome) (c : String) (msg : String)
    (q : Query) (e : JsEnv) (tok : String) (hknown : c ∈ supportedChains)
    (hfail : fetchWithRetry (f (chainUrl c)) = .failure msg)
    (hqc : q.chain = none) (hqp : q.pair = none) (hqt : q.token = some tok) (htk : tok ≠ "") :
    chainContribution f (jsTrim (jsToLower tok)) c = [] ∧
    (searchTokenAcrossChains f tok).2 = supportedChains ∧
    (searchTokenAcrossChains f tok).1 =
      (supportedChains.map (chainContribution f (jsTrim (jsToLower tok)))).flatten ∧
    successOf (execute q f e) = true ∧
    chainsCheckedOf (execute q f e) = supportedChains := by
  have hcontrib : chainContribution f (jsTrim (jsToLower tok)) c = [] := by
    unfold chainContribution
    rw [hfail]
  have hct : strTruthy q.chain = false := by rw [hqc]; rfl
  have hpt : strTruthy q.pair = false := by rw [hqp]; rfl
  have htt : strTruthy q.token = true := by simp [hqt, strTruthy, htk]
  have hfp := fetchPhase_token q f hct htt hpt
  have hso := execute_ok q f e _ _ _ hfp
  refine ⟨hcontrib, by rw [searchTokenAcrossChains_eq],
    by rw [searchTokenAcrossChains_eq], ?_, ?_⟩
  · rw [hso]
    rfl
  · rw [hso]
    have hcc : chainsCheckedOf (ToolResponse.success
        (shapePhase q e (searchTokenAcrossChains f (q.token.getD "")).1 "multi-chain-search"
          (searchTokenAcrossChains f (q.token.getD "")).2)) =
        (searchTokenAcrossChains f (q.token.getD "")).2 := rfl
    rw [hcc, hqt]
    simp only [Option.getD_some]
    rw [searchTokenAcrossChains_eq]

theorem C2_witness :
    chainContribution fFailEthA (jsTrim (jsToLower "aaa")) "ethereum" = [] ∧
    (searchTokenAcrossChains fFailEthA "aaa").2 = supportedChains ∧
    (searchTokenAcrossChains fFailEthA "aaa").1 =
      (supportedChains.map (chainContribution fFailEthA (jsTrim (jsToLower "aaa")))).flatten ∧
    successOf (execute qTokenOnly fFailEthA env0) = true ∧
    chainsCheckedOf (execute qTokenOnly fFailEthA env0) = supportedChains :=
  C2_source_exhaustion fFailEthA "ethereum"
    "Failed after 3 attempts. Last error: boom A ECONNRESET" qTokenOnly env0 "aaa"
    (by decide) (by decide) rfl rfl rfl (by decide)

/-- Claim C2 counterexample: the ethereum source exhausts its 3 attempts with
last error message A in one run and message B in the other; the two full
envelopes are EQUAL, so no field of the result records the failure or its
reason — in particular the result has no failedSources list carrying "a
non-empty failure reason", refuting that part of the claim. -/
theorem C2_cex :
    execute qTokenOnly fFailEthA env0 = execute qTokenOnly fFailEthB env0 ∧
    fetchWithRetry (fFailEthA (chainUrl "ethereum")) =
      .failure "Failed after 3 attempts. Last error: boom A ECONNRESET" ∧
    fetchWithRetry (fFailEthB (chainUrl "ethereum")) =
      .failure "Failed after 3 attempts. Last error: boom B ECONNRESET" :=
  ⟨by decide, by decide, by decide⟩

/-- Claim C3 (amended): the pair, tradeType and minValue stages are each
applied exactly when their Query field is truthy and are no-ops otherwise,
with the stated membership characterisations; the substring/token stage,
however, is NOT applied regardless of the other fields: it filters (with the
case-insensitive substring test on both symbols) only when a chain is also
selected, it is a no-op when the chain is absent, and during the cross-chain
search (token present, chain and pair absent) every collected record does
satisfy the same substring test. -/
theorem C3_filter_stages :
    (∀ (c : Option String) (l : List MasterDexTrade), tokenStage none c l = l) ∧
    (∀ (tok : Option String) (l : List MasterDexTrade), tokenStage tok none l = l) ∧
    (∀ (tok c : Option String) (l : List MasterDexTrade) (t : MasterDexTrade),
      strTruthy tok = true → strTruthy c = true →
      (t ∈ tokenStage tok c l ↔
        t ∈ l ∧ tokenFilterPred (jsTrim (jsToLower (tok.getD ""))) t = true)) ∧
    (∀ (f : String → Nat → FetchOutcome) (tok : String) (t : MasterDexTrade),
      t ∈ (searchTokenAcrossChains f tok).1 →
      tokenFilterPred (jsTrim (jsToLower tok)) t = true) ∧
    (∀ (l : List MasterDexTrade),
      pairStage none l = l ∧ typeStage none l = l ∧ minStage none l = l) ∧
    (∀ (p : Option String) (l : List MasterDexTrade) (t : MasterDexTrade),
      strTruthy p = true →
      (t ∈ pairStage p l ↔
        t ∈ l ∧
          pairFilterPred (jsSplitSlash (jsTrim (jsToLower (p.getD ""))))[0]?
            (jsSplitSlash (jsTrim (jsToLower (p.getD ""))))[1]? t = true)) ∧
    (∀ (ty : Option String) (l : List MasterDexTrade) (t : MasterDexTrade),
      strTruthy ty = true →
      (t ∈ typeStage ty l ↔
        t ∈ l ∧ (jsToLower t.transType == jsToLower (ty.getD "")) = true)) ∧
    (∀ (v : Option Int) (l : List MasterDexTrade) (t : MasterDexTrade),
      intTruthy v = true →
      (t ∈ minStage v l ↔ t ∈ l ∧ v.getD 0 ≤ t.tnxvalue)) := by
  refine ⟨?_, ?_, ?_, ?_, ?_, ?_, ?_, ?_⟩
  · intro c l
    rfl
  · intro tok l
    have hand : (strTruthy tok && strTruthy none) = false := by
      cases htok : strTruthy tok <;> rfl
    unfold tokenStage
    rw [hand]
    rfl
  · intro tok c l t h1 h2
    unfold tokenStage
    rw [if_pos (by rw [h1, h2]; rfl)]
    exact List.mem_filter
  · intro f tok t ht
    rw [searchTokenAcrossChains_eq] at ht
    rcases List.mem_flatten.mp ht with ⟨l', hl', htl⟩
    rcases List.mem_map.mp hl' with ⟨ch, hch, rfl⟩
    unfold chainContribution at htl
    cases hr : fetchWithRetry (f (chainUrl ch)) with
    | failure m =>
      rw [hr] at htl
      simp at htl
    | success b =>
      rw [hr] at htl
      cases b with
      | none => simp at htl
      | some data => exact (List.mem_filter.mp htl).2
  · intro l
    exact ⟨rfl, rfl, rfl⟩
  · intro p l t hp
    unfold pairStage
    rw [if_pos hp]
    exact List.mem_filter
  · intro ty l t hty
    unfold typeStage
    rw [if_pos hty]
    exact List.mem_filter
  · intro v l t hv
    unfold minStage
    rw [if_pos hv, List.mem_filter]
    simp only [decide_eq_true_eq]

theorem C3_witness :
    tAB ∈ tokenStage (some "aa") (some "base") [tAB] ↔
      tAB ∈ [tAB] ∧ tokenFilterPred (jsTrim (jsToLower ((some "aa").getD ""))) tAB = true :=
  C3_filter_stages.2.2.1 (some "aa") (some "base") [tAB] tAB (by decide) (by decide)

/-- Claim C3 counterexample: with token "foo" present together with a pair
filter but no chain, the substring stage is skipped entirely: the result
contains a record neither of whose symbols contains "foo", refuting "for
every query whose token field is present, the substring stage keeps exactly
the records where either symbolic identifier contains the token ...
regardless of which other Query fields are set". -/
theorem C3_cex :
    rawData (execute qTokenPair fOk env0) = [tAB] ∧
    tokenFilterPred (jsTrim (jsToLower "foo")) tAB = false :=
  ⟨by decide, by decide⟩
